import Mathlib

/-!
Verification of the real-time analytics aggregation engine.

The development shallowly embeds the Go sources of the repository:

* `internal/aggregation/metrics.go` — `Metric`, `MetricsSnapshot`,
  `TimeWindow`, `WindowManager`;
* `internal/aggregation/aggregator.go` — `Aggregator`: `ProcessEvent`,
  `updateGlobalMetrics`, the per-type metric helpers, the flush loop of
  `Start` / `flushExpiredWindows` / `cleanup`, and `GetStats`;
* `internal/server/server.go` — `handleBatchEvents` over the bounded
  event queue.

Modelling conventions:

* `time.Time` instants and `time.Duration` are nanosecond counts
  (`Nat`); `t.Before u` is `t < u`, `t.After u` is `u < t`,
  `t.Truncate d` is flooring to a multiple of `d` (for `d ≠ 0`).
* `float64` is embedded as `ℚ`, `int64` as `Int` (the claims do not
  exercise overflow), Go maps as insertion-ordered association lists.
* Calls to `time.Now()` inside the code become explicit `now`
  parameters; the `Timestamp`/`Tags` fields of `Metric`, which no claim
  mentions, are not modelled.
* Mutation through a pointer returned by a get-or-create is modelled by
  the get-or-create followed by writing the mutated value back at the
  same key.
-/

namespace Analytics

abbrev Time := Nat
abbrev Duration := Nat

/-- `time.Time.Truncate`: round down to a multiple of `d`
(Go returns `t` unchanged for non-positive `d`). -/
def truncTime (t : Time) (d : Duration) : Time :=
  if d = 0 then t else t / d * d

/-- `MetricType` from metrics.go. -/
inductive MetricType
  | counter
  | gauge
  | histogram
  | set
deriving DecidableEq, Repr

/-- `Metric` from metrics.go. `Value` is `ℚ` for `float64`, `Count` is
`Int` for `int64`, `Values` is the histogram observation list and
`UniqueSet` the set-valued payload. -/
structure Metric where
  name : String
  type : MetricType
  value : ℚ
  count : Int
  values : List ℚ
  uniqueSet : Finset String
deriving DecidableEq

/-- `NewMetric` from metrics.go. -/
def NewMetric (name : String) (metricType : MetricType) : Metric :=
  { name := name
    type := metricType
    value := 0
    count := 0
    values := []
    uniqueSet := ∅ }

/-- `Metric.Increment`: `Count++; Value += 1`. -/
def Metric.Increment (m : Metric) : Metric :=
  { m with count := m.count + 1, value := m.value + 1 }

/-- `Metric.IncrementBy`: `Value += v; Count++`. -/
def Metric.IncrementBy (m : Metric) (v : ℚ) : Metric :=
  { m with value := m.value + v, count := m.count + 1 }

/-- `Metric.Set`: `Value = v` (count untouched). -/
def Metric.Set (m : Metric) (v : ℚ) : Metric :=
  { m with value := v }

/-- `Metric.Observe`: append to `Values`, `Count++`, `Value += v`. -/
def Metric.Observe (m : Metric) (v : ℚ) : Metric :=
  { m with values := m.values ++ [v], count := m.count + 1, value := m.value + v }

/-- `Metric.AddUnique`: insert into `UniqueSet`, then
`Count = int64(len(UniqueSet))`. -/
def Metric.AddUnique (m : Metric) (value : String) : Metric :=
  let s := insert value m.uniqueSet
  { m with uniqueSet := s, count := (s.card : Int) }

/-- `Metric.Average`: `0` when `Count == 0`, else `Value / Count`. -/
def Metric.Average (m : Metric) : ℚ :=
  if m.count = 0 then 0 else m.value / (m.count : ℚ)

/-- Association-list representation of the Go `map[string]*Metric`. -/
abbrev MetricMap := List (String × Metric)

/-- Lookup in the metric map (Go map indexing). -/
def lookupMetric : MetricMap → String → Option Metric
  | [], _ => none
  | (k, m) :: rest, n => if k = n then some m else lookupMetric rest n

/-- Replace the binding of `n` (present) or append it (absent):
the map write `ms.Metrics[n] = m`. -/
def storeMetric : MetricMap → String → Metric → MetricMap
  | [], n, m => [(n, m)]
  | (k, m0) :: rest, n, m =>
      if k = n then (n, m) :: rest else (k, m0) :: storeMetric rest n m

/-- `MetricsSnapshot` from metrics.go (creation timestamp not modelled). -/
structure MetricsSnapshot where
  Metrics : MetricMap
deriving DecidableEq

/-- `NewMetricsSnapshot`. -/
def NewMetricsSnapshot : MetricsSnapshot := { Metrics := [] }

/-- `MetricsSnapshot.GetMetric`: return the existing metric of that name
if present (the requested type is ignored), otherwise create, insert and
return a fresh one.  The returned pair is (metric, updated snapshot),
mirroring the returned pointer plus the mutated map. -/
def MetricsSnapshot.GetMetric (ms : MetricsSnapshot) (name : String)
    (metricType : MetricType) : Metric × MetricsSnapshot :=
  match lookupMetric ms.Metrics name with
  | some metric => (metric, ms)
  | none =>
      let metric := NewMetric name metricType
      (metric, { Metrics := storeMetric ms.Metrics name metric })

/-- `MetricsSnapshot.GetMetricValue`: `(metric.Value, true)` when the
name is bound, `(0, false)` otherwise. -/
def MetricsSnapshot.GetMetricValue (ms : MetricsSnapshot) (name : String) :
    ℚ × Bool :=
  match lookupMetric ms.Metrics name with
  | some metric => (metric.value, true)
  | none => (0, false)

/-- `GetMetric` followed by a mutation `f` of the returned pointer: the
mutated metric is written back at the same key. -/
def MetricsSnapshot.modifyMetric (ms : MetricsSnapshot) (name : String)
    (metricType : MetricType) (f : Metric → Metric) : MetricsSnapshot :=
  let p := ms.GetMetric name metricType
  { Metrics := storeMetric p.2.Metrics name (f p.1) }

/-- `TimeWindow` from metrics.go. -/
structure TimeWindow where
  StartTime : Time
  EndTime : Time
  Duration : Duration
  Metrics : MetricsSnapshot
  Closed : Bool
deriving DecidableEq

/-- `NewTimeWindow`. -/
def NewTimeWindow (startTime : Time) (duration : Duration) : TimeWindow :=
  { StartTime := startTime
    EndTime := startTime + duration
    Duration := duration
    Metrics := NewMetricsSnapshot
    Closed := false }

/-- `TimeWindow.IsActive`: `!Closed && t.Before(EndTime)`. -/
def TimeWindow.IsActive (tw : TimeWindow) (t : Time) : Bool :=
  !tw.Closed && t < tw.EndTime

/-- `TimeWindow.ShouldClose`: `!Closed && t.After(EndTime)`. -/
def TimeWindow.ShouldClose (tw : TimeWindow) (t : Time) : Bool :=
  !tw.Closed && tw.EndTime < t

/-- `TimeWindow.Close`. -/
def TimeWindow.Close (tw : TimeWindow) : TimeWindow :=
  { tw with Closed := true }

/-- `WindowManager` from metrics.go. -/
structure WindowManager where
  Windows : List TimeWindow
  duration : Duration
deriving DecidableEq

/-- `NewWindowManager`. -/
def NewWindowManager (duration : Duration) : WindowManager :=
  { Windows := [], duration := duration }

/-- `WindowManager.GetOrCreateWindow`: truncate `t` to the window start,
return the first NOT-closed window with that start; otherwise append a
fresh window.  Result is (window, updated manager). -/
def WindowManager.GetOrCreateWindow (wm : WindowManager) (t : Time) :
    TimeWindow × WindowManager :=
  let windowStart := truncTime t wm.duration
  match wm.Windows.find? (fun w => w.StartTime == windowStart && !w.Closed) with
  | some window => (window, wm)
  | none =>
      let window := NewTimeWindow windowStart wm.duration
      (window, { wm with Windows := wm.Windows ++ [window] })

/-- `WindowManager.CloseExpiredWindows`: close every window with
`ShouldClose t` in place; return the closed windows in encounter order
together with the updated manager. -/
def WindowManager.CloseExpiredWindows (wm : WindowManager) (t : Time) :
    List TimeWindow × WindowManager :=
  ((wm.Windows.filter (fun w => w.ShouldClose t)).map TimeWindow.Close,
   { wm with Windows :=
      wm.Windows.map (fun w => if w.ShouldClose t then w.Close else w) })

/-- `WindowManager.Cleanup`: keep a window iff it is not closed or
`now.Sub(EndTime) < keepDuration` (`time.Sub` may be negative, hence the
`Int` cast). -/
def WindowManager.Cleanup (wm : WindowManager) (now : Time)
    (keepDuration : Duration) : WindowManager :=
  { wm with Windows :=
      wm.Windows.filter (fun w =>
        !w.Closed || decide ((now : Int) - (w.EndTime : Int) < (keepDuration : Int))) }

/-- `WindowManager.GetActiveWindows`: the not-closed windows in order. -/
def WindowManager.GetActiveWindows (wm : WindowManager) : List TimeWindow :=
  wm.Windows.filter (fun w => !w.Closed)

/-- A dynamic JSON property value (`interface{}`): the aggregator only
distinguishes strings, numbers and everything else. -/
inductive PropValue
  | str (s : String)
  | num (q : ℚ)
  | other
deriving DecidableEq

/-- Lookup in the `map[string]interface{}` of event properties. -/
def lookupProp : List (String × PropValue) → String → Option PropValue
  | [], _ => none
  | (k, v) :: rest, n => if k = n then some v else lookupProp rest n

/-- `event.Properties[key].(string)`: the checked type assertion. -/
def propString (props : List (String × PropValue)) (key : String) :
    Option String :=
  match lookupProp props key with
  | some (.str s) => some s
  | _ => none

/-- `event.Properties[key].(float64)`: the checked type assertion. -/
def propNum (props : List (String × PropValue)) (key : String) : Option ℚ :=
  match lookupProp props key with
  | some (.num q) => some q
  | _ => none

/-- `Event` from aggregator.go (same shape as the server-side `Event`);
`Timestamp = 0` models the Go zero time. -/
structure Event where
  ID : String
  type : String
  Timestamp : Time
  UserID : String
  SessionID : String
  Properties : List (String × PropValue)
deriving DecidableEq

/-- The `Aggregator` state: the global snapshot and the window manager
(logger, callback field and intervals carry no claim-relevant state; the
callback is passed to `Start` explicitly). -/
structure Aggregator where
  globalMetrics : MetricsSnapshot
  windowManager : WindowManager
deriving DecidableEq

/-- `NewAggregator` (window duration fixed at construction). -/
def NewAggregator (windowDuration : Duration) : Aggregator :=
  { globalMetrics := NewMetricsSnapshot
    windowManager := NewWindowManager windowDuration }

/-- `Aggregator.processPageviewMetrics` (the `pageviews` counter is
bumped before the `page` property is inspected). -/
def Aggregator.processPageviewMetrics (a : Aggregator) (event : Event) :
    Aggregator :=
  match propString event.Properties "page" with
  | some page =>
      let gm := ((a.globalMetrics.modifyMetric "pageviews" MetricType.counter
        Metric.Increment).modifyMetric "unique_pages" MetricType.set
        (fun m => m.AddUnique page)).modifyMetric ("page_views:" ++ page)
        MetricType.counter Metric.Increment
      { a with globalMetrics := gm }
  | none =>
      let gm := a.globalMetrics.modifyMetric "pageviews" MetricType.counter
        Metric.Increment
      { a with globalMetrics := gm }

/-- `Aggregator.processClickMetrics`. -/
def Aggregator.processClickMetrics (a : Aggregator) (event : Event) :
    Aggregator :=
  match propString event.Properties "element" with
  | some element =>
      let gm := (a.globalMetrics.modifyMetric "clicks" MetricType.counter
        Metric.Increment).modifyMetric ("clicks:" ++ element)
        MetricType.counter Metric.Increment
      { a with globalMetrics := gm }
  | none =>
      let gm := a.globalMetrics.modifyMetric "clicks" MetricType.counter
        Metric.Increment
      { a with globalMetrics := gm }

/-- `Aggregator.processPurchaseMetrics`. -/
def Aggregator.processPurchaseMetrics (a : Aggregator) (event : Event) :
    Aggregator :=
  match propNum event.Properties "amount" with
  | some amount =>
      let gm := ((a.globalMetrics.modifyMetric "purchases" MetricType.counter
        Metric.Increment).modifyMetric "revenue" MetricType.counter
        (fun m => m.IncrementBy amount)).modifyMetric "revenue_histogram"
        MetricType.histogram (fun m => m.Observe amount)
      { a with globalMetrics := gm }
  | none =>
      let gm := a.globalMetrics.modifyMetric "purchases" MetricType.counter
        Metric.Increment
      { a with globalMetrics := gm }

/-- The four unconditional updates at the top of `updateGlobalMetrics`:
`total_events`, `events_by_type:<type>`, `unique_users`,
`unique_sessions`, in source order.  (`GetMetric` is called even for an
empty id; `AddUnique` runs only for a non-empty one.) -/
def MetricsSnapshot.updateCommon (gm : MetricsSnapshot) (event : Event) :
    MetricsSnapshot :=
  (((gm.modifyMetric "total_events" MetricType.counter
      Metric.Increment).modifyMetric ("events_by_type:" ++ event.type)
      MetricType.counter Metric.Increment).modifyMetric "unique_users"
      MetricType.set
      (fun m => if event.UserID = "" then m else m.AddUnique event.UserID)).modifyMetric
    "unique_sessions" MetricType.set
    (fun m => if event.SessionID = "" then m else m.AddUnique event.SessionID)

/-- `Aggregator.updateGlobalMetrics`: the unconditional block, then the
per-type switch. -/
def Aggregator.updateGlobalMetrics (a : Aggregator) (event : Event) :
    Aggregator :=
  let a1 : Aggregator :=
    { a with globalMetrics := a.globalMetrics.updateCommon event }
  match event.type with
  | "pageview" => a1.processPageviewMetrics event
  | "click" => a1.processClickMetrics event
  | "purchase" => a1.processPurchaseMetrics event
  | _ => a1

/-- `Aggregator.updateWindowMetrics`: mutations of the window's own
snapshot through the returned window pointer. -/
def updateWindowMetrics (window : TimeWindow) (event : Event) : TimeWindow :=
  let wms := window.Metrics.modifyMetric "events" MetricType.counter
    Metric.Increment
  let wms := wms.modifyMetric ("events:" ++ event.type) MetricType.counter
    Metric.Increment
  let wms := wms.modifyMetric "active_users" MetricType.set
    (fun m => if event.UserID = "" then m else m.AddUnique event.UserID)
  { window with Metrics := wms }

/-- Mutate the first list element satisfying `p` with `f`; `none` when
no element satisfies `p`. -/
def mutateFirst (p : TimeWindow → Bool) (f : TimeWindow → TimeWindow) :
    List TimeWindow → Option (List TimeWindow)
  | [] => none
  | w :: ws =>
      if p w then some (f w :: ws) else (mutateFirst p f ws).map (w :: ·)

/-- `GetOrCreateWindow` followed by an in-place mutation `f` of the
returned window pointer: the first not-closed window with the truncated
start is mutated, or a fresh window is created, mutated and appended. -/
def WindowManager.mutateWindow (wm : WindowManager) (t : Time)
    (f : TimeWindow → TimeWindow) : WindowManager :=
  let windowStart := truncTime t wm.duration
  match mutateFirst (fun w => w.StartTime == windowStart && !w.Closed) f
      wm.Windows with
  | some ws => { wm with Windows := ws }
  | none =>
      { wm with Windows :=
          wm.Windows ++ [f (NewTimeWindow windowStart wm.duration)] }

/-- `Aggregator.ProcessEvent`: global update, then the per-window
update through the window returned by `GetOrCreateWindow`. -/
def Aggregator.ProcessEvent (a : Aggregator) (event : Event) : Aggregator :=
  let a1 := a.updateGlobalMetrics event
  let wm := a1.windowManager.mutateWindow event.Timestamp
    (fun w => updateWindowMetrics w event)
  { a1 with windowManager := wm }

/-- Processing a whole event sequence in order. -/
def Aggregator.ProcessAll (a : Aggregator) (events : List Event) : Aggregator :=
  events.foldl Aggregator.ProcessEvent a

/-- The result map of `Aggregator.GetStats` (`uptime` not modelled). -/
structure Stats where
  total_events : ℚ
  unique_users : ℚ
  unique_sessions : ℚ
  active_windows : Nat
  metrics_count : Nat
deriving DecidableEq

/-- `Aggregator.GetStats`: the stats entries come from
`GetMetricValue`, i.e. from the `Value` field of the metrics. -/
def Aggregator.GetStats (a : Aggregator) : Stats :=
  { total_events := (a.globalMetrics.GetMetricValue "total_events").1
    unique_users := (a.globalMetrics.GetMetricValue "unique_users").1
    unique_sessions := (a.globalMetrics.GetMetricValue "unique_sessions").1
    active_windows := a.windowManager.GetActiveWindows.length
    metrics_count := a.globalMetrics.Metrics.length }

/-- Outcome of one invocation of the window-closed callback: it returns
normally or panics. -/
inductive CallbackResult
  | ok
  | panics
deriving DecidableEq

/-- The callback loop of `flushExpiredWindows`: the callback runs on
each closed window in order, with no `recover` anywhere, so a panic
aborts the iteration.  Result: the windows on which the callback was
actually invoked, and whether a panic escaped. -/
def runCallbacks (cb : TimeWindow → CallbackResult) :
    List TimeWindow → List TimeWindow × Bool
  | [] => ([], false)
  | w :: ws =>
      match cb w with
      | .panics => ([w], true)
      | .ok =>
          let r := runCallbacks cb ws
          (w :: r.1, r.2)

/-- `5 * time.Minute` in nanoseconds, the retention used by
`Aggregator.cleanup`. -/
def fiveMinutes : Duration := 5 * 60 * 1000000000

/-- `Aggregator.flushExpiredWindows`: close the expired windows, then
invoke the callback (when registered) on each closed window.  Result:
(state, callback invocations, panic escaped). -/
def Aggregator.flushExpiredWindows (a : Aggregator)
    (cb : Option (TimeWindow → CallbackResult)) (now : Time) :
    Aggregator × List TimeWindow × Bool :=
  let p := a.windowManager.CloseExpiredWindows now
  let a1 := { a with windowManager := p.2 }
  match cb with
  | none => (a1, [], false)
  | some f =>
      let r := runCallbacks f p.1
      (a1, r.1, r.2)

/-- `Aggregator.cleanup`: windows are kept for 5 minutes. -/
def Aggregator.cleanup (a : Aggregator) (now : Time) : Aggregator :=
  { a with windowManager := a.windowManager.Cleanup now fiveMinutes }

/-- One firing of the select in `Aggregator.Start`: either the ticker
fires (with the current time) or the cancellation context is done. -/
inductive LoopSignal
  | tick (now : Time)
  | cancel
deriving DecidableEq

/-- The select loop of `Aggregator.Start`, driven by the sequence of
signals it observes.  On `cancel` it logs and returns at once; on a
tick it runs `flushExpiredWindows` then `cleanup`.  An unrecovered
callback panic unwinds out of the loop (no later signal is processed).
Result: (final state, all callback invocations in order, panic escaped). -/
def Aggregator.Start (cb : Option (TimeWindow → CallbackResult)) :
    List LoopSignal → Aggregator → Aggregator × List TimeWindow × Bool
  | [], a => (a, [], false)
  | .cancel :: _, a => (a, [], false)
  | .tick now :: rest, a =>
      let r := a.flushExpiredWindows cb now
      if r.2.2 then r
      else
        let r2 := Aggregator.Start cb rest (r.1.cleanup now)
        (r2.1, r.2.1 ++ r2.2.1, r2.2.2)

/-- The bounded event queue (`chan Event` with capacity `BufferSize`). -/
structure EventQueue where
  capacity : Nat
  buf : List Event
deriving DecidableEq

/-- The non-blocking `select { case queue <- e: ... default: ... }`:
succeeds iff the buffer has room. -/
def EventQueue.trySend (q : EventQueue) (e : Event) : EventQueue × Bool :=
  if q.buf.length < q.capacity then
    ({ q with buf := q.buf ++ [e] }, true)
  else (q, false)

/-- An HTTP response of `handleBatchEvents`: `400 Bad Request`, or
`202 Accepted` with the `{total, accepted, rejected}` payload. -/
inductive BatchResponse
  | badRequest (message : String)
  | accepted (total accepted rejected : Nat)
deriving DecidableEq

/-- The HTTP status code of a batch response. -/
def BatchResponse.status : BatchResponse → Nat
  | .badRequest _ => 400
  | .accepted _ _ _ => 202

/-- The defaulting of a batch item at index `i`: fill a zero timestamp
with `now` and an empty id with a generated one. -/
def defaultEvent (now : Time) (i : Nat) (e : Event) : Event :=
  let e1 := if e.Timestamp = 0 then { e with Timestamp := now } else e
  if e1.ID = "" then
    { e1 with ID := "evt_" ++ toString now ++ "_" ++ toString i }
  else e1

/-- The per-item loop body of `handleBatchEvents`: default the
timestamp and id, reject an empty type, otherwise try the non-blocking
send.  State: (queue, accepted, rejected). -/
def batchStep (now : Time) (st : EventQueue × Nat × Nat)
    (ie : Nat × Event) : EventQueue × Nat × Nat :=
  let event := defaultEvent now ie.1 ie.2
  if event.type = "" then (st.1, st.2.1, st.2.2 + 1)
  else
    let r := st.1.trySend event
    if r.2 then (r.1, st.2.1 + 1, st.2.2) else (r.1, st.2.1, st.2.2 + 1)

/-- `Server.handleBatchEvents` on an already-decoded batch: reject an
empty or oversize batch with `400` and no queue change; otherwise run
the per-item loop and answer `202` with the counts. -/
def handleBatchEvents (q : EventQueue) (events : List Event) (now : Time) :
    BatchResponse × EventQueue :=
  if events.length = 0 then (.badRequest "empty batch", q)
  else if 1000 < events.length then
    (.badRequest "batch size exceeds limit of 1000", q)
  else
    let st := events.enum.foldl (batchStep now) (q, 0, 0)
    (.accepted events.length st.2.1 st.2.2, st.1)

/-- The metric the Go code mutates through the pointer returned by
`GetMetric`: the stored one, or a fresh one when the name is unbound. -/
def gotMetric (ms : MetricsSnapshot) (name : String) (ty : MetricType) : Metric :=
  (lookupMetric ms.Metrics name).getD (NewMetric name ty)
/-- The `Count` of a named metric, `0` when the name is unbound. -/
def metricCount (ms : MetricsSnapshot) (name : String) : Int :=
  match lookupMetric ms.Metrics name with
  | some m => m.count
  | none => 0
/-- The invariant maintained on the `unique_users` metric: zero value,
unique set `S`, count `|S|`. -/
def UUInv (gm : MetricsSnapshot) (S : Finset String) : Prop :=
  (gotMetric gm "unique_users" MetricType.set).value = 0 ∧
  (gotMetric gm "unique_users" MetricType.set).uniqueSet = S ∧
  (gotMetric gm "unique_users" MetricType.set).count = (S.card : Int)
/-- The invariant maintained on the `unique_sessions` metric. -/
def USInv (gm : MetricsSnapshot) (S : Finset String) : Prop :=
  (gotMetric gm "unique_sessions" MetricType.set).value = 0 ∧
  (gotMetric gm "unique_sessions" MetricType.set).uniqueSet = S ∧
  (gotMetric gm "unique_sessions" MetricType.set).count = (S.card : Int)
/-- The distinct non-empty user ids of an event sequence. -/
def usersOf (events : List Event) : Finset String :=
  (events.filterMap
    (fun e => if e.UserID = "" then none else some e.UserID)).toFinset
/-- The distinct non-empty session ids of an event sequence. -/
def sessionsOf (events : List Event) : Finset String :=
  (events.filterMap
    (fun e => if e.SessionID = "" then none else some e.SessionID)).toFinset
/-- The states of `WindowManager` reachable by interleaving
`GetOrCreateWindow`, `CloseExpiredWindows` and `Cleanup` from a fresh
manager of duration `d`. -/
inductive WMReachable (d : Duration) : WindowManager → Prop
  | init : WMReachable d (NewWindowManager d)
  | get (wm : WindowManager) (t : Time) :
      WMReachable d wm → WMReachable d (wm.GetOrCreateWindow t).2
  | close (wm : WindowManager) (t : Time) :
      WMReachable d wm → WMReachable d (wm.CloseExpiredWindows t).2
  | cleanup (wm : WindowManager) (now : Time) (keep : Duration) :
      WMReachable d wm → WMReachable d (wm.Cleanup now keep)
/-- A reachable state exposing two windows with the same start: create
`[0,60)`, close it at `t = 61`, then get-or-create for `t = 30` again
(the closed window is skipped, a duplicate open one is appended). -/
def wmBad : WindowManager :=
  ((((NewWindowManager 60).GetOrCreateWindow 0).2.CloseExpiredWindows
    61).2.GetOrCreateWindow 30).2
/-- A concrete aggregator owning one open window `[0, 60)`. -/
def aggC1 : Aggregator :=
  { globalMetrics := NewMetricsSnapshot
    windowManager := ((NewWindowManager 60).GetOrCreateWindow 10).2 }
/-- A concrete aggregator owning the two open windows `[0, 60)` and
`[60, 120)`. -/
def aggC2 : Aggregator :=
  { globalMetrics := NewMetricsSnapshot
    windowManager :=
      (((NewWindowManager 60).GetOrCreateWindow 10).2.GetOrCreateWindow
        70).2 }
/-- A window-closed callback that panics on the window starting at `0`
and returns normally otherwise. -/
def cbPanic : TimeWindow → CallbackResult :=
  fun w => if w.StartTime = 0 then CallbackResult.panics else CallbackResult.ok

/-! ### Helper lemmas about the metric map -/

theorem lookup_store (l : MetricMap) (n n' : String) (m : Metric) :
    lookupMetric (storeMetric l n m) n' =
      if n' = n then some m else lookupMetric l n' := by
  induction l with
  | nil =>
      by_cases h : n' = n
      · subst h; simp [storeMetric, lookupMetric]
      · simp [storeMetric, lookupMetric, h, Ne.symm h]
  | cons p rest ih =>
      obtain ⟨k, m0⟩ := p
      by_cases hk : k = n
      · subst hk
        by_cases h : n' = k
        · subst h; simp [storeMetric, lookupMetric]
        · simp [storeMetric, lookupMetric, h, Ne.symm h]
      · by_cases h : n' = k
        · subst h
          simp [storeMetric, lookupMetric, hk]
        · simp [storeMetric, lookupMetric, hk, Ne.symm h, h, ih]

theorem getMetric_eq (ms : MetricsSnapshot) (name : String) (ty : MetricType) :
    (ms.GetMetric name ty).1 = gotMetric ms name ty := by
  unfold MetricsSnapshot.GetMetric gotMetric
  cases h : lookupMetric ms.Metrics name <;> simp [h]

theorem lookup_getMetric_snd (ms : MetricsSnapshot) (name n' : String)
    (ty : MetricType) :
    lookupMetric (ms.GetMetric name ty).2.Metrics n' =
      if n' = name then some (gotMetric ms name ty)
      else lookupMetric ms.Metrics n' := by
  unfold MetricsSnapshot.GetMetric gotMetric
  cases h : lookupMetric ms.Metrics name with
  | some m =>
      by_cases hn : n' = name <;> simp [h, hn]
  | none =>
      by_cases hn : n' = name <;> simp [h, hn, lookup_store]

theorem lookup_modify (ms : MetricsSnapshot) (name n' : String)
    (ty : MetricType) (f : Metric → Metric) :
    lookupMetric (ms.modifyMetric name ty f).Metrics n' =
      if n' = name then some (f (gotMetric ms name ty))
      else lookupMetric ms.Metrics n' := by
  unfold MetricsSnapshot.modifyMetric
  rw [lookup_store, getMetric_eq]
  by_cases hn : n' = name
  · simp [hn]
  · simp [hn, lookup_getMetric_snd]

theorem gotMetric_count (ms : MetricsSnapshot) (name : String)
    (ty : MetricType) : (gotMetric ms name ty).count = metricCount ms name := by
  unfold gotMetric metricCount
  cases h : lookupMetric ms.Metrics name with
  | some m => simp [h]
  | none => simp [h, NewMetric]

theorem metricCount_eq_some {ms : MetricsSnapshot} {n : String} {m : Metric}
    (h : lookupMetric ms.Metrics n = some m) : metricCount ms n = m.count := by
  unfold metricCount
  rw [h]

theorem metricCount_modify_ne (ms : MetricsSnapshot) (name n' : String)
    (ty : MetricType) (f : Metric → Metric) (h : n' ≠ name) :
    metricCount (ms.modifyMetric name ty f) n' = metricCount ms n' := by
  unfold metricCount
  rw [lookup_modify, if_neg h]

theorem metricCount_modify_increment (ms : MetricsSnapshot) (name : String)
    (ty : MetricType) :
    metricCount (ms.modifyMetric name ty Metric.Increment) name =
      metricCount ms name + 1 := by
  rw [metricCount_eq_some (by rw [lookup_modify, if_pos rfl])]
  simp [Metric.Increment, gotMetric_count]

/-! ### C10: counter, gauge and average semantics of `Metric` -/

theorem increment_iterate_count (m : Metric) :
    ∀ n : Nat, (Metric.Increment^[n] m).count = m.count + n := by
  intro n
  induction n with
  | zero => simp
  | succ k ih =>
      rw [Function.iterate_succ_apply']
      simp only [Metric.Increment, ih]
      push_cast
      ring

theorem increment_iterate_value (m : Metric) :
    ∀ n : Nat, (Metric.Increment^[n] m).value = m.value + n := by
  intro n
  induction n with
  | zero => simp
  | succ k ih =>
      rw [Function.iterate_succ_apply']
      simp only [Metric.Increment, ih]
      push_cast
      ring

/-- C10: on a fresh metric, `n` calls to `Increment` give
`Count = n` and `Value = n`; `IncrementBy v` adds `v` to `Value` and `1`
to `Count`; `Set v` assigns `Value = v` and leaves `Count` unchanged;
`Average` is `Value/Count` for positive `Count` and `0` for zero
`Count`. -/
theorem metric_counter_gauge_average_spec (n : Nat) (name : String)
    (m : Metric) (v : ℚ) :
    (Metric.Increment^[n] (NewMetric name MetricType.counter)).count = (n : Int) ∧
    (Metric.Increment^[n] (NewMetric name MetricType.counter)).value = (n : ℚ) ∧
    (m.IncrementBy v).value = m.value + v ∧
    (m.IncrementBy v).count = m.count + 1 ∧
    (m.Set v).value = v ∧
    (m.Set v).count = m.count ∧
    (0 < m.count → m.Average = m.value / (m.count : ℚ)) ∧
    (m.count = 0 → m.Average = 0) := by
  refine ⟨?_, ?_, rfl, rfl, rfl, rfl, ?_, ?_⟩
  · rw [increment_iterate_count]; simp [NewMetric]
  · rw [increment_iterate_value]; simp [NewMetric]
  · intro h
    unfold Metric.Average
    rw [if_neg (by omega)]
  · intro h
    unfold Metric.Average
    rw [if_pos h]

/-- Witness for C10 at concrete inputs: `Increment ×10` on a fresh
counter gives `count = 10`, `value = 10`; the hypotheses of the two
`Average` conjuncts are discharged at counters of count `1` and `0`. -/
theorem metric_counter_gauge_average_spec_witness :
    (Metric.Increment^[10] (NewMetric "c" MetricType.counter)).count = 10 ∧
    (Metric.Increment^[10] (NewMetric "c" MetricType.counter)).value = 10 ∧
    (0 < (Metric.Increment (NewMetric "c" MetricType.counter)).count ∧
      (Metric.Increment (NewMetric "c" MetricType.counter)).Average =
        (Metric.Increment (NewMetric "c" MetricType.counter)).value /
          ((Metric.Increment (NewMetric "c" MetricType.counter)).count : ℚ)) ∧
    ((NewMetric "g" MetricType.gauge).count = 0 ∧
      (NewMetric "g" MetricType.gauge).Average = 0) := by
  refine ⟨(metric_counter_gauge_average_spec 10 "c" (NewMetric "g" MetricType.gauge) 5).1,
    (metric_counter_gauge_average_spec 10 "c" (NewMetric "g" MetricType.gauge) 5).2.1,
    ⟨by decide, ?_⟩, ⟨rfl, ?_⟩⟩
  · exact (metric_counter_gauge_average_spec 0 "c"
      (Metric.Increment (NewMetric "c" MetricType.counter)) 0).2.2.2.2.2.2.1 (by decide)
  · exact (metric_counter_gauge_average_spec 0 "c"
      (NewMetric "g" MetricType.gauge) 0).2.2.2.2.2.2.2 rfl

/-! ### C7: `AddUnique` keeps `Count` equal to the set cardinality -/

theorem foldl_addUnique_uniqueSet (l : List String) :
    ∀ m : Metric, (l.foldl Metric.AddUnique m).uniqueSet =
      m.uniqueSet ∪ l.toFinset := by
  induction l with
  | nil => intro m; simp
  | cons a l ih =>
      intro m
      rw [List.foldl_cons, ih]
      show (insert a m.uniqueSet) ∪ l.toFinset = _
      rw [Finset.insert_union, List.toFinset_cons, Finset.union_insert]

theorem foldl_addUnique_count (l : List String) :
    ∀ m : Metric, m.count = m.uniqueSet.card →
      (l.foldl Metric.AddUnique m).count =
        ((l.foldl Metric.AddUnique m).uniqueSet.card : Int) := by
  induction l with
  | nil => intro m h; simpa using h
  | cons a l ih =>
      intro m _
      rw [List.foldl_cons]
      exact ih (m.AddUnique a) rfl

/-- C7: a `UniqueSet` metric mutated only by `AddUnique` keeps
`Count = |unique_set|`, which is the number of distinct strings added;
in particular `user_1, user_2, user_1, user_3, user_2` gives
`Count = 3`. -/
theorem addUnique_count_spec (name : String) (ty : MetricType) (l : List String) :
    (l.foldl Metric.AddUnique (NewMetric name ty)).count =
      ((l.foldl Metric.AddUnique (NewMetric name ty)).uniqueSet.card : Int) ∧
    (l.foldl Metric.AddUnique (NewMetric name ty)).uniqueSet = l.toFinset ∧
    (["user_1", "user_2", "user_1", "user_3", "user_2"].foldl Metric.AddUnique
      (NewMetric "unique_users" MetricType.set)).count = 3 := by
  refine ⟨foldl_addUnique_count l (NewMetric name ty) rfl, ?_, by decide⟩
  rw [foldl_addUnique_uniqueSet]
  simp [NewMetric]

/-! ### C8: `GetMetric` is idempotent per name, the kind is set at first use -/

/-- C8: once `GetMetric name k1` has returned metric `m` for a fresh
name, a later `GetMetric name k2` returns the same metric and leaves the
snapshot unchanged, and the metric's kind is `k1` (the requested `k2` is
ignored). -/
theorem getMetric_idempotent_spec (ms : MetricsSnapshot) (name : String)
    (k1 k2 : MetricType) (h : lookupMetric ms.Metrics name = none) :
    (ms.GetMetric name k1).2.GetMetric name k2 = ms.GetMetric name k1 ∧
    (ms.GetMetric name k1).1.type = k1 := by
  have h1 : ms.GetMetric name k1 =
      (NewMetric name k1,
       { Metrics := storeMetric ms.Metrics name (NewMetric name k1) }) := by
    simp [MetricsSnapshot.GetMetric, h]
  have h2 : lookupMetric (storeMetric ms.Metrics name (NewMetric name k1))
      name = some (NewMetric name k1) := by
    rw [lookup_store, if_pos rfl]
  constructor
  · rw [h1]
    simp [MetricsSnapshot.GetMetric, h2]
  · rw [h1]
    simp [NewMetric]

/-- Witness for C8 on the empty snapshot, with kinds counter then gauge. -/
theorem getMetric_idempotent_spec_witness :
    lookupMetric NewMetricsSnapshot.Metrics "m" = none ∧
    (NewMetricsSnapshot.GetMetric "m" MetricType.counter).2.GetMetric "m"
        MetricType.gauge =
      NewMetricsSnapshot.GetMetric "m" MetricType.counter ∧
    (NewMetricsSnapshot.GetMetric "m" MetricType.counter).1.type =
      MetricType.counter :=
  ⟨rfl,
   (getMetric_idempotent_spec NewMetricsSnapshot "m" MetricType.counter
      MetricType.gauge rfl).1,
   (getMetric_idempotent_spec NewMetricsSnapshot "m" MetricType.counter
      MetricType.gauge rfl).2⟩

/-! ### C6: window activity, closing, and the boundary instant -/

/-- C6: `IsActive t` iff the window is open and `t < end`;
`ShouldClose t` iff it is open and `t > end`; at `t = end` both are
false; and for an aligned window, `GetOrCreateWindow end` yields a
window starting exactly at `end` — the boundary event belongs to the
next window. -/
theorem window_boundary_spec (w : TimeWindow) (t : Time) (wm : WindowManager)
    (hd : wm.duration ≠ 0) (halign : w.StartTime % wm.duration = 0)
    (hend : w.EndTime = w.StartTime + wm.duration) :
    (w.IsActive t = true ↔ (w.Closed = false ∧ t < w.EndTime)) ∧
    (w.ShouldClose t = true ↔ (w.Closed = false ∧ w.EndTime < t)) ∧
    w.IsActive w.EndTime = false ∧
    w.ShouldClose w.EndTime = false ∧
    (wm.GetOrCreateWindow w.EndTime).1.StartTime = w.EndTime := by
  have htr : truncTime w.EndTime wm.duration = w.EndTime := by
    unfold truncTime
    rw [if_neg hd, hend, Nat.div_mul_cancel]
    exact Nat.dvd_add (Nat.dvd_of_mod_eq_zero halign) dvd_rfl
  refine ⟨?_, ?_, ?_, ?_, ?_⟩
  · simp [TimeWindow.IsActive]
  · simp [TimeWindow.ShouldClose]
  · simp [TimeWindow.IsActive]
  · simp [TimeWindow.ShouldClose]
  · have hrw : wm.GetOrCreateWindow w.EndTime =
        match wm.Windows.find? (fun x => x.StartTime == w.EndTime && !x.Closed) with
        | some window => (window, wm)
        | none =>
            (NewTimeWindow w.EndTime wm.duration,
             { wm with Windows := wm.Windows ++ [NewTimeWindow w.EndTime wm.duration] }) := by
      simp [WindowManager.GetOrCreateWindow, htr]
    rw [hrw]
    cases hf : wm.Windows.find? (fun x => x.StartTime == w.EndTime && !x.Closed) with
    | some w' =>
        have hp := List.find?_some hf
        simp only [Bool.and_eq_true, beq_iff_eq] at hp
        simp [hp.1]
    | none => simp [NewTimeWindow]

/-- Witness for C6: the window `[0, 60)` of a manager with duration
`60`, probed at `t = 30`. -/
theorem window_boundary_spec_witness :
    ((NewWindowManager 60).duration ≠ 0 ∧
      (NewTimeWindow 0 60).StartTime % (NewWindowManager 60).duration = 0 ∧
      (NewTimeWindow 0 60).EndTime =
        (NewTimeWindow 0 60).StartTime + (NewWindowManager 60).duration) ∧
    (NewTimeWindow 0 60).IsActive (NewTimeWindow 0 60).EndTime = false ∧
    (NewTimeWindow 0 60).ShouldClose (NewTimeWindow 0 60).EndTime = false ∧
    ((NewWindowManager 60).GetOrCreateWindow
        (NewTimeWindow 0 60).EndTime).1.StartTime =
      (NewTimeWindow 0 60).EndTime := by
  have h := window_boundary_spec (NewTimeWindow 0 60) 30 (NewWindowManager 60)
    (by decide) (by decide) (by decide)
  exact ⟨⟨by decide, by decide, by decide⟩, h.2.2.1, h.2.2.2.1, h.2.2.2.2⟩

/-! ### Disjointness of the metric names used by the aggregator -/

theorem head?_append_some :
    ∀ {l l' : List Char} {d : Char}, l.head? = some d → (l ++ l').head? = some d
  | [], _, _, h => by simp at h
  | _ :: _, _, _, h => by simpa using h

theorem append_ne_of_head {p q : String} {c d : Char}
    (hp : p.data.head? = some c) (hq : q.data.head? = some d) (hcd : c ≠ d)
    (s t : String) : p ++ s ≠ q ++ t := by
  intro h
  have h2 := congrArg (fun x : String => x.data.head?) h
  simp only [String.data_append] at h2
  rw [head?_append_some hp, head?_append_some hq] at h2
  exact hcd (Option.some.inj h2)

theorem ne_append_of_head {q : String} {d : Char} (L : String)
    (hq : q.data.head? = some d) (hL : L.data.head? ≠ some d) (t : String) :
    L ≠ q ++ t := by
  intro h
  apply hL
  rw [h]
  show ((q ++ t).data).head? = some d
  rw [String.data_append]
  exact head?_append_some hq

theorem append_left_inj {p s t : String} (h : p ++ s = p ++ t) : s = t := by
  have h2 := congrArg String.data h
  simp only [String.data_append] at h2
  exact String.ext (List.append_cancel_left h2)

/-- Names of the form `events_by_type:<t>` differ from every global
metric name whose first character is not `e`. -/
theorem ebt_ne (t L : String) (hL : L.data.head? ≠ some 'e') :
    "events_by_type:" ++ t ≠ L :=
  fun h => ne_append_of_head L (by decide) hL t h.symm

theorem pv_ne (p L : String) (hL : L.data.head? ≠ some 'p') :
    "page_views:" ++ p ≠ L :=
  fun h => ne_append_of_head L (by decide) hL p h.symm

theorem cl_ne (x L : String) (hL : L.data.head? ≠ some 'c') :
    "clicks:" ++ x ≠ L :=
  fun h => ne_append_of_head L (by decide) hL x h.symm

theorem pv_ne_ebt (p t : String) : "page_views:" ++ p ≠ "events_by_type:" ++ t :=
  append_ne_of_head (p := "page_views:") (q := "events_by_type:") (c := Char.ofNat 112) (d := Char.ofNat 101) (by decide) (by decide) (by decide) p t

theorem cl_ne_ebt (x t : String) : "clicks:" ++ x ≠ "events_by_type:" ++ t :=
  append_ne_of_head (p := "clicks:") (q := "events_by_type:") (c := Char.ofNat 99) (d := Char.ofNat 101) (by decide) (by decide) (by decide) x t

theorem ebt_inj {t1 t2 : String}
    (h : "events_by_type:" ++ t1 = "events_by_type:" ++ t2) : t1 = t2 :=
  append_left_inj h

/-! ### C5: `total_events` partitions into the `events_by_type:*` counters -/

theorem processAll_nil (a : Aggregator) : a.ProcessAll [] = a := rfl

theorem processAll_cons (a : Aggregator) (e : Event) (l : List Event) :
    a.ProcessAll (e :: l) = (a.ProcessEvent e).ProcessAll l := rfl

theorem processEvent_globalMetrics (a : Aggregator) (e : Event) :
    (a.ProcessEvent e).globalMetrics = (a.updateGlobalMetrics e).globalMetrics := rfl

theorem count_pageview_ne (a : Aggregator) (e : Event) (n : String)
    (h1 : n ≠ "pageviews") (h2 : n ≠ "unique_pages")
    (h3 : ∀ p, n ≠ "page_views:" ++ p) :
    metricCount (a.processPageviewMetrics e).globalMetrics n =
      metricCount a.globalMetrics n := by
  cases hp : propString e.Properties "page" with
  | some page =>
      simp only [Aggregator.processPageviewMetrics, hp]
      rw [metricCount_modify_ne _ _ _ _ _ (h3 page),
          metricCount_modify_ne _ _ _ _ _ h2,
          metricCount_modify_ne _ _ _ _ _ h1]
  | none =>
      simp only [Aggregator.processPageviewMetrics, hp]
      rw [metricCount_modify_ne _ _ _ _ _ h1]

theorem count_click_ne (a : Aggregator) (e : Event) (n : String)
    (h1 : n ≠ "clicks") (h2 : ∀ x, n ≠ "clicks:" ++ x) :
    metricCount (a.processClickMetrics e).globalMetrics n =
      metricCount a.globalMetrics n := by
  cases hp : propString e.Properties "element" with
  | some element =>
      simp only [Aggregator.processClickMetrics, hp]
      rw [metricCount_modify_ne _ _ _ _ _ (h2 element),
          metricCount_modify_ne _ _ _ _ _ h1]
  | none =>
      simp only [Aggregator.processClickMetrics, hp]
      rw [metricCount_modify_ne _ _ _ _ _ h1]

theorem count_purchase_ne (a : Aggregator) (e : Event) (n : String)
    (h1 : n ≠ "purchases") (h2 : n ≠ "revenue") (h3 : n ≠ "revenue_histogram") :
    metricCount (a.processPurchaseMetrics e).globalMetrics n =
      metricCount a.globalMetrics n := by
  cases hp : propNum e.Properties "amount" with
  | some amount =>
      simp only [Aggregator.processPurchaseMetrics, hp]
      rw [metricCount_modify_ne _ _ _ _ _ h3,
          metricCount_modify_ne _ _ _ _ _ h2,
          metricCount_modify_ne _ _ _ _ _ h1]
  | none =>
      simp only [Aggregator.processPurchaseMetrics, hp]
      rw [metricCount_modify_ne _ _ _ _ _ h1]

/-- A name untouched by all three per-type branches sees only the
unconditional block of `updateGlobalMetrics`. -/
theorem count_switch_ne (a : Aggregator) (e : Event) (n : String)
    (h1 : n ≠ "pageviews") (h2 : n ≠ "unique_pages")
    (h3 : ∀ p, n ≠ "page_views:" ++ p)
    (h4 : n ≠ "clicks") (h5 : ∀ x, n ≠ "clicks:" ++ x)
    (h6 : n ≠ "purchases") (h7 : n ≠ "revenue") (h8 : n ≠ "revenue_histogram") :
    metricCount (a.updateGlobalMetrics e).globalMetrics n =
      metricCount (a.globalMetrics.updateCommon e) n := by
  simp only [Aggregator.updateGlobalMetrics]
  split
  · rw [count_pageview_ne _ _ _ h1 h2 h3]
  · rw [count_click_ne _ _ _ h4 h5]
  · rw [count_purchase_ne _ _ _ h6 h7 h8]
  · rfl

theorem count_common_total (gm : MetricsSnapshot) (e : Event) :
    metricCount (gm.updateCommon e) "total_events" =
      metricCount gm "total_events" + 1 := by
  unfold MetricsSnapshot.updateCommon
  rw [metricCount_modify_ne _ _ _ _ _ (by decide),
      metricCount_modify_ne _ _ _ _ _ (by decide),
      metricCount_modify_ne _ _ _ _ _
        ((ebt_ne e.type "total_events" (by decide)).symm),
      metricCount_modify_increment]

theorem count_common_ebt_hit (gm : MetricsSnapshot) (e : Event) :
    metricCount (gm.updateCommon e) ("events_by_type:" ++ e.type) =
      metricCount gm ("events_by_type:" ++ e.type) + 1 := by
  unfold MetricsSnapshot.updateCommon
  rw [metricCount_modify_ne _ _ _ _ _ (ebt_ne e.type "unique_sessions" (by decide)),
      metricCount_modify_ne _ _ _ _ _ (ebt_ne e.type "unique_users" (by decide)),
      metricCount_modify_increment,
      metricCount_modify_ne _ _ _ _ _ (ebt_ne e.type "total_events" (by decide))]

theorem count_common_ebt_miss (gm : MetricsSnapshot) (e : Event) (t : String)
    (h : e.type ≠ t) :
    metricCount (gm.updateCommon e) ("events_by_type:" ++ t) =
      metricCount gm ("events_by_type:" ++ t) := by
  unfold MetricsSnapshot.updateCommon
  rw [metricCount_modify_ne _ _ _ _ _ (ebt_ne t "unique_sessions" (by decide)),
      metricCount_modify_ne _ _ _ _ _ (ebt_ne t "unique_users" (by decide)),
      metricCount_modify_ne _ _ _ _ _
        (fun heq => h (ebt_inj heq).symm),
      metricCount_modify_ne _ _ _ _ _ (ebt_ne t "total_events" (by decide))]

theorem count_processEvent_total (a : Aggregator) (e : Event) :
    metricCount (a.ProcessEvent e).globalMetrics "total_events" =
      metricCount a.globalMetrics "total_events" + 1 := by
  rw [processEvent_globalMetrics,
      count_switch_ne a e _ (by decide) (by decide)
        (fun p => (pv_ne p "total_events" (by decide)).symm) (by decide)
        (fun x => (cl_ne x "total_events" (by decide)).symm) (by decide)
        (by decide) (by decide),
      count_common_total]

theorem count_processEvent_ebt (a : Aggregator) (e : Event) (t : String) :
    metricCount (a.ProcessEvent e).globalMetrics ("events_by_type:" ++ t) =
      metricCount a.globalMetrics ("events_by_type:" ++ t) +
        (if e.type = t then 1 else 0) := by
  rw [processEvent_globalMetrics,
      count_switch_ne a e _ (ebt_ne t "pageviews" (by decide))
        (ebt_ne t "unique_pages" (by decide))
        (fun p => (pv_ne_ebt p t).symm)
        (ebt_ne t "clicks" (by decide))
        (fun x => (cl_ne_ebt x t).symm)
        (ebt_ne t "purchases" (by decide))
        (ebt_ne t "revenue" (by decide))
        (ebt_ne t "revenue_histogram" (by decide))]
  by_cases h : e.type = t
  · subst h
    rw [count_common_ebt_hit, if_pos rfl]
  · rw [count_common_ebt_miss _ _ _ h, if_neg h]
    ring

theorem processAll_total (events : List Event) : ∀ a : Aggregator,
    metricCount (a.ProcessAll events).globalMetrics "total_events" =
      metricCount a.globalMetrics "total_events" + events.length := by
  induction events with
  | nil => intro a; simp [processAll_nil]
  | cons e rest ih =>
      intro a
      rw [processAll_cons, ih, count_processEvent_total]
      simp only [List.length_cons]
      push_cast
      ring

theorem processAll_ebt (events : List Event) (t : String) : ∀ a : Aggregator,
    metricCount (a.ProcessAll events).globalMetrics ("events_by_type:" ++ t) =
      metricCount a.globalMetrics ("events_by_type:" ++ t) +
        ((events.map Event.type).count t : Int) := by
  induction events with
  | nil => intro a; simp [processAll_nil]
  | cons e rest ih =>
      intro a
      rw [processAll_cons, ih, count_processEvent_ebt]
      by_cases h : e.type = t
      · simp [List.count_cons, h]
        ring
      · simp [List.count_cons, h, Ne.symm h]

/-- C5: in a quiescent state after any finite event sequence, the count
of `total_events` equals the sum over the occurring event types of the
counts of `events_by_type:<t>`. -/
theorem total_events_partition_spec (d : Duration) (events : List Event) :
    metricCount ((NewAggregator d).ProcessAll events).globalMetrics
        "total_events" =
      ∑ t ∈ (events.map Event.type).toFinset,
        metricCount ((NewAggregator d).ProcessAll events).globalMetrics
          ("events_by_type:" ++ t) := by
  rw [processAll_total]
  rw [Finset.sum_congr rfl
    (fun t _ => processAll_ebt events t (NewAggregator d))]
  have h0 : metricCount (NewAggregator d).globalMetrics "total_events" = 0 := rfl
  have h1 : ∀ t, metricCount (NewAggregator d).globalMetrics
      ("events_by_type:" ++ t) = 0 := fun t => rfl
  simp only [h0, h1, zero_add]
  rw [← Nat.cast_sum]
  rw [List.sum_toFinset_count_eq_length]
  simp

/-! ### C4: the `unique_users` / `unique_sessions` stats read `Value`,
which `AddUnique` never writes -/

theorem lookup_modify_ne (ms : MetricsSnapshot) (name n' : String)
    (ty : MetricType) (f : Metric → Metric) (h : n' ≠ name) :
    lookupMetric (ms.modifyMetric name ty f).Metrics n' =
      lookupMetric ms.Metrics n' := by
  rw [lookup_modify, if_neg h]

theorem gotMetric_congr {ms1 ms2 : MetricsSnapshot} {n : String}
    (ty : MetricType)
    (h : lookupMetric ms1.Metrics n = lookupMetric ms2.Metrics n) :
    gotMetric ms1 n ty = gotMetric ms2 n ty := by
  unfold gotMetric
  rw [h]

theorem lookup_pageview_ne (a : Aggregator) (e : Event) (n : String)
    (h1 : n ≠ "pageviews") (h2 : n ≠ "unique_pages")
    (h3 : ∀ p, n ≠ "page_views:" ++ p) :
    lookupMetric (a.processPageviewMetrics e).globalMetrics.Metrics n =
      lookupMetric a.globalMetrics.Metrics n := by
  cases hp : propString e.Properties "page" with
  | some page =>
      simp only [Aggregator.processPageviewMetrics, hp]
      rw [lookup_modify_ne _ _ _ _ _ (h3 page),
          lookup_modify_ne _ _ _ _ _ h2,
          lookup_modify_ne _ _ _ _ _ h1]
  | none =>
      simp only [Aggregator.processPageviewMetrics, hp]
      rw [lookup_modify_ne _ _ _ _ _ h1]

theorem lookup_click_ne (a : Aggregator) (e : Event) (n : String)
    (h1 : n ≠ "clicks") (h2 : ∀ x, n ≠ "clicks:" ++ x) :
    lookupMetric (a.processClickMetrics e).globalMetrics.Metrics n =
      lookupMetric a.globalMetrics.Metrics n := by
  cases hp : propString e.Properties "element" with
  | some element =>
      simp only [Aggregator.processClickMetrics, hp]
      rw [lookup_modify_ne _ _ _ _ _ (h2 element),
          lookup_modify_ne _ _ _ _ _ h1]
  | none =>
      simp only [Aggregator.processClickMetrics, hp]
      rw [lookup_modify_ne _ _ _ _ _ h1]

theorem lookup_purchase_ne (a : Aggregator) (e : Event) (n : String)
    (h1 : n ≠ "purchases") (h2 : n ≠ "revenue") (h3 : n ≠ "revenue_histogram") :
    lookupMetric (a.processPurchaseMetrics e).globalMetrics.Metrics n =
      lookupMetric a.globalMetrics.Metrics n := by
  cases hp : propNum e.Properties "amount" with
  | some amount =>
      simp only [Aggregator.processPurchaseMetrics, hp]
      rw [lookup_modify_ne _ _ _ _ _ h3,
          lookup_modify_ne _ _ _ _ _ h2,
          lookup_modify_ne _ _ _ _ _ h1]
  | none =>
      simp only [Aggregator.processPurchaseMetrics, hp]
      rw [lookup_modify_ne _ _ _ _ _ h1]

theorem lookup_switch_ne (a : Aggregator) (e : Event) (n : String)
    (h1 : n ≠ "pageviews") (h2 : n ≠ "unique_pages")
    (h3 : ∀ p, n ≠ "page_views:" ++ p)
    (h4 : n ≠ "clicks") (h5 : ∀ x, n ≠ "clicks:" ++ x)
    (h6 : n ≠ "purchases") (h7 : n ≠ "revenue") (h8 : n ≠ "revenue_histogram") :
    lookupMetric (a.updateGlobalMetrics e).globalMetrics.Metrics n =
      lookupMetric (a.globalMetrics.updateCommon e).Metrics n := by
  simp only [Aggregator.updateGlobalMetrics]
  split
  · rw [lookup_pageview_ne _ _ _ h1 h2 h3]
  · rw [lookup_click_ne _ _ _ h4 h5]
  · rw [lookup_purchase_ne _ _ _ h6 h7 h8]
  · rfl

theorem lookup_common_uu (gm : MetricsSnapshot) (e : Event) :
    lookupMetric (gm.updateCommon e).Metrics "unique_users" =
      some (if e.UserID = "" then gotMetric gm "unique_users" MetricType.set
            else (gotMetric gm "unique_users" MetricType.set).AddUnique
              e.UserID) := by
  unfold MetricsSnapshot.updateCommon
  rw [lookup_modify_ne _ _ _ _ _ (by decide), lookup_modify, if_pos rfl]
  have hcg : gotMetric ((gm.modifyMetric "total_events" MetricType.counter
      Metric.Increment).modifyMetric ("events_by_type:" ++ e.type)
      MetricType.counter Metric.Increment) "unique_users" MetricType.set =
      gotMetric gm "unique_users" MetricType.set :=
    gotMetric_congr _
      (by rw [lookup_modify_ne _ _ _ _ _
                ((ebt_ne e.type "unique_users" (by decide)).symm),
              lookup_modify_ne _ _ _ _ _ (by decide)])
  rw [hcg]

theorem lookup_common_us (gm : MetricsSnapshot) (e : Event) :
    lookupMetric (gm.updateCommon e).Metrics "unique_sessions" =
      some (if e.SessionID = "" then
              gotMetric gm "unique_sessions" MetricType.set
            else (gotMetric gm "unique_sessions" MetricType.set).AddUnique
              e.SessionID) := by
  unfold MetricsSnapshot.updateCommon
  rw [lookup_modify, if_pos rfl]
  have hcg : gotMetric (((gm.modifyMetric "total_events" MetricType.counter
      Metric.Increment).modifyMetric ("events_by_type:" ++ e.type)
      MetricType.counter Metric.Increment).modifyMetric "unique_users"
      MetricType.set
      (fun m => if e.UserID = "" then m else m.AddUnique e.UserID))
      "unique_sessions" MetricType.set =
      gotMetric gm "unique_sessions" MetricType.set :=
    gotMetric_congr _
      (by rw [lookup_modify_ne _ _ _ _ _ (by decide),
              lookup_modify_ne _ _ _ _ _
                ((ebt_ne e.type "unique_sessions" (by decide)).symm),
              lookup_modify_ne _ _ _ _ _ (by decide)])
  rw [hcg]

theorem step_uu (a : Aggregator) (e : Event) (S : Finset String)
    (h : UUInv a.globalMetrics S) :
    UUInv (a.ProcessEvent e).globalMetrics
      (if e.UserID = "" then S else insert e.UserID S) := by
  obtain ⟨hv, hs, hc⟩ := h
  have hlk : lookupMetric (a.ProcessEvent e).globalMetrics.Metrics
      "unique_users" =
      some (if e.UserID = "" then gotMetric a.globalMetrics "unique_users"
              MetricType.set
            else (gotMetric a.globalMetrics "unique_users"
              MetricType.set).AddUnique e.UserID) := by
    rw [processEvent_globalMetrics,
        lookup_switch_ne a e _ (by decide) (by decide)
          (fun p => (pv_ne p "unique_users" (by decide)).symm) (by decide)
          (fun x => (cl_ne x "unique_users" (by decide)).symm) (by decide)
          (by decide) (by decide),
        lookup_common_uu]
  unfold UUInv gotMetric
  rw [hlk]
  by_cases hu : e.UserID = ""
  · simp [hu, hv, hs, hc]
  · simp [hu, Metric.AddUnique, hv, hs, hc]

theorem step_us (a : Aggregator) (e : Event) (S : Finset String)
    (h : USInv a.globalMetrics S) :
    USInv (a.ProcessEvent e).globalMetrics
      (if e.SessionID = "" then S else insert e.SessionID S) := by
  obtain ⟨hv, hs, hc⟩ := h
  have hlk : lookupMetric (a.ProcessEvent e).globalMetrics.Metrics
      "unique_sessions" =
      some (if e.SessionID = "" then gotMetric a.globalMetrics
              "unique_sessions" MetricType.set
            else (gotMetric a.globalMetrics "unique_sessions"
              MetricType.set).AddUnique e.SessionID) := by
    rw [processEvent_globalMetrics,
        lookup_switch_ne a e _ (by decide) (by decide)
          (fun p => (pv_ne p "unique_sessions" (by decide)).symm) (by decide)
          (fun x => (cl_ne x "unique_sessions" (by decide)).symm) (by decide)
          (by decide) (by decide),
        lookup_common_us]
  unfold USInv gotMetric
  rw [hlk]
  by_cases hu : e.SessionID = ""
  · simp [hu, hv, hs, hc]
  · simp [hu, Metric.AddUnique, hv, hs, hc]

theorem processAll_uu (events : List Event) :
    ∀ (a : Aggregator) (S : Finset String), UUInv a.globalMetrics S →
      UUInv (a.ProcessAll events).globalMetrics (S ∪ usersOf events) := by
  induction events with
  | nil =>
      intro a S h
      simpa [processAll_nil, usersOf] using h
  | cons e rest ih =>
      intro a S h
      rw [processAll_cons]
      have h3 := ih (a.ProcessEvent e) _ (step_uu a e S h)
      by_cases hu : e.UserID = ""
      · rw [if_pos hu] at h3
        have hset : usersOf (e :: rest) = usersOf rest := by
          simp [usersOf, List.filterMap_cons, hu]
        rw [hset]
        exact h3
      · rw [if_neg hu] at h3
        have hset : S ∪ usersOf (e :: rest) =
            (insert e.UserID S) ∪ usersOf rest := by
          simp [usersOf, List.filterMap_cons, hu, Finset.insert_union,
            Finset.union_insert]
        rw [hset]
        exact h3

theorem processAll_us (events : List Event) :
    ∀ (a : Aggregator) (S : Finset String), USInv a.globalMetrics S →
      USInv (a.ProcessAll events).globalMetrics (S ∪ sessionsOf events) := by
  induction events with
  | nil =>
      intro a S h
      simpa [processAll_nil, sessionsOf] using h
  | cons e rest ih =>
      intro a S h
      rw [processAll_cons]
      have h3 := ih (a.ProcessEvent e) _ (step_us a e S h)
      by_cases hu : e.SessionID = ""
      · rw [if_pos hu] at h3
        have hset : sessionsOf (e :: rest) = sessionsOf rest := by
          simp [sessionsOf, List.filterMap_cons, hu]
        rw [hset]
        exact h3
      · rw [if_neg hu] at h3
        have hset : S ∪ sessionsOf (e :: rest) =
            (insert e.SessionID S) ∪ sessionsOf rest := by
          simp [sessionsOf, List.filterMap_cons, hu, Finset.insert_union,
            Finset.union_insert]
        rw [hset]
        exact h3

theorem getMetricValue_of_got_zero {ms : MetricsSnapshot} {n : String}
    (h : (gotMetric ms n MetricType.set).value = 0) :
    (ms.GetMetricValue n).1 = 0 := by
  unfold MetricsSnapshot.GetMetricValue
  unfold gotMetric at h
  cases hl : lookupMetric ms.Metrics n with
  | some m =>
      rw [hl] at h
      simpa using h
  | none => rfl

/-- C4: the `unique_users`/`unique_sessions` stats entries are the
`Value` field of the corresponding set metric; `AddUnique` updates only
`Count` (and the set), never `Value`; hence both stats are `0` for every
event sequence, while the metric's `Count` is the number of distinct
non-empty ids. -/
theorem unique_stats_zero_spec (d : Duration) (events : List Event) :
    ((NewAggregator d).ProcessAll events).GetStats.unique_users =
      (((NewAggregator d).ProcessAll
        events).globalMetrics.GetMetricValue "unique_users").1 ∧
    ((NewAggregator d).ProcessAll events).GetStats.unique_sessions =
      (((NewAggregator d).ProcessAll
        events).globalMetrics.GetMetricValue "unique_sessions").1 ∧
    (∀ (m : Metric) (u : String), (m.AddUnique u).value = m.value) ∧
    ((NewAggregator d).ProcessAll events).GetStats.unique_users = 0 ∧
    ((NewAggregator d).ProcessAll events).GetStats.unique_sessions = 0 ∧
    metricCount ((NewAggregator d).ProcessAll events).globalMetrics
        "unique_users" = ((usersOf events).card : Int) ∧
    metricCount ((NewAggregator d).ProcessAll events).globalMetrics
        "unique_sessions" = ((sessionsOf events).card : Int) := by
  have huu : UUInv ((NewAggregator d).ProcessAll events).globalMetrics
      (usersOf events) := by
    have h := processAll_uu events (NewAggregator d) ∅ ⟨rfl, rfl, rfl⟩
    rwa [Finset.empty_union] at h
  have hus : USInv ((NewAggregator d).ProcessAll events).globalMetrics
      (sessionsOf events) := by
    have h := processAll_us events (NewAggregator d) ∅ ⟨rfl, rfl, rfl⟩
    rwa [Finset.empty_union] at h
  refine ⟨rfl, rfl, fun m u => rfl, ?_, ?_, ?_, ?_⟩
  · exact getMetricValue_of_got_zero huu.1
  · exact getMetricValue_of_got_zero hus.1
  · rw [← gotMetric_count _ _ MetricType.set, huu.2.2]
  · rw [← gotMetric_count _ _ MetricType.set, hus.2.2]

/-! ### C9: batch ingestion -/

theorem defaultEvent_type (now : Time) (i : Nat) (e : Event) :
    (defaultEvent now i e).type = e.type := by
  simp only [defaultEvent]
  split <;> split <;> rfl

/-- Invariant of the per-item loop: accepted + rejected grows by the
item count, capacity is preserved, and the enqueued suffix consists of
`accepted − acc` events all with a non-empty type. -/
theorem batch_fold_spec (now : Time) :
    ∀ (l : List (Nat × Event)) (q : EventQueue) (acc rej : Nat),
      (l.foldl (batchStep now) (q, acc, rej)).2.1 +
          (l.foldl (batchStep now) (q, acc, rej)).2.2 =
        acc + rej + l.length ∧
      (l.foldl (batchStep now) (q, acc, rej)).1.capacity = q.capacity ∧
      ∃ ne : List Event,
        (l.foldl (batchStep now) (q, acc, rej)).1.buf = q.buf ++ ne ∧
        (∀ x ∈ ne, x.type ≠ "") ∧
        acc + ne.length = (l.foldl (batchStep now) (q, acc, rej)).2.1 := by
  intro l
  induction l with
  | nil =>
      intro q acc rej
      exact ⟨by simp, rfl, [], by simp, by simp, by simp⟩
  | cons ie rest ih =>
      intro q acc rej
      rw [List.foldl_cons]
      by_cases ht : (defaultEvent now ie.1 ie.2).type = ""
      · have hstep : batchStep now (q, acc, rej) ie = (q, acc, rej + 1) := by
          simp [batchStep, ht]
        rw [hstep]
        obtain ⟨hsum, hcap, ne, hbuf, hne, hlen⟩ := ih q acc (rej + 1)
        exact ⟨by simp only [List.length_cons]; omega, hcap, ne, hbuf, hne, hlen⟩
      · by_cases hroom : q.buf.length < q.capacity
        · have hstep : batchStep now (q, acc, rej) ie =
              ({ q with buf := q.buf ++ [defaultEvent now ie.1 ie.2] },
               acc + 1, rej) := by
            simp [batchStep, ht, EventQueue.trySend, hroom]
          rw [hstep]
          obtain ⟨hsum, hcap, ne, hbuf, hne, hlen⟩ :=
            ih { q with buf := q.buf ++ [defaultEvent now ie.1 ie.2] }
              (acc + 1) rej
          refine ⟨by simp only [List.length_cons]; omega, by simpa using hcap,
            defaultEvent now ie.1 ie.2 :: ne, ?_, ?_, ?_⟩
          · simpa using hbuf
          · intro x hx
            rcases List.mem_cons.mp hx with hx | hx
            · rw [hx]; exact ht
            · exact hne x hx
          · simp only [List.length_cons]
            omega
        · have hstep : batchStep now (q, acc, rej) ie = (q, acc, rej + 1) := by
            simp [batchStep, ht, EventQueue.trySend, hroom]
          rw [hstep]
          obtain ⟨hsum, hcap, ne, hbuf, hne, hlen⟩ := ih q acc (rej + 1)
          exact ⟨by simp only [List.length_cons]; omega, hcap, ne, hbuf, hne, hlen⟩

/-- C9: a batch of size 0 or above 1000 yields `400` and leaves the
queue untouched; otherwise the handler answers `202` even with
rejections, `accepted + rejected = total`, and the enqueued events are
exactly the `accepted` ones, all with a non-empty type (empty-typed
items are rejected and never enqueued). -/
theorem handleBatchEvents_spec (q : EventQueue) (events : List Event)
    (now : Time) :
    ((events.length = 0 ∨ 1000 < events.length) →
      ((handleBatchEvents q events now).1.status = 400 ∧
       (handleBatchEvents q events now).2 = q)) ∧
    (¬(events.length = 0 ∨ 1000 < events.length) →
      ((handleBatchEvents q events now).1.status = 202 ∧
       ∃ acc rej, (handleBatchEvents q events now).1 =
           BatchResponse.accepted events.length acc rej ∧
         acc + rej = events.length ∧
         ∃ ne : List Event,
           (handleBatchEvents q events now).2.buf = q.buf ++ ne ∧
           (∀ x ∈ ne, x.type ≠ "") ∧ ne.length = acc)) := by
  constructor
  · intro h
    rcases h with h | h
    · simp [handleBatchEvents, h, BatchResponse.status]
    · have h0 : events.length ≠ 0 := by omega
      simp [handleBatchEvents, h0, h, BatchResponse.status]
  · intro h
    push_neg at h
    obtain ⟨h0, h1⟩ := h
    have hrw : handleBatchEvents q events now =
        (BatchResponse.accepted events.length
          (events.enum.foldl (batchStep now) (q, 0, 0)).2.1
          (events.enum.foldl (batchStep now) (q, 0, 0)).2.2,
         (events.enum.foldl (batchStep now) (q, 0, 0)).1) := by
      simp [handleBatchEvents, h0, not_lt.mpr h1]
    obtain ⟨hsum, hcap, ne, hbuf, hne, hlen⟩ :=
      batch_fold_spec now events.enum q 0 0
    rw [hrw]
    refine ⟨rfl, _, _, rfl, ?_, ne, hbuf, hne, ?_⟩
    · rw [hsum]
      simp [List.enum_length]
    · omega

/-- Witness for C9: the empty batch is rejected with `400`; a two-item
batch (one valid `click`, one with an empty type) is answered `202`. -/
theorem handleBatchEvents_spec_witness :
    ((([] : List Event).length = 0 ∨ 1000 < ([] : List Event).length) ∧
      (handleBatchEvents ⟨2, []⟩ ([] : List Event) 5).1.status = 400 ∧
      (handleBatchEvents ⟨2, []⟩ ([] : List Event) 5).2 = ⟨2, []⟩) ∧
    (¬([(⟨"", "click", 0, "u", "s", []⟩ : Event), ⟨"", "", 0, "", "", []⟩].length = 0 ∨
        1000 < [(⟨"", "click", 0, "u", "s", []⟩ : Event), ⟨"", "", 0, "", "", []⟩].length) ∧
      (handleBatchEvents ⟨2, []⟩
        [(⟨"", "click", 0, "u", "s", []⟩ : Event), ⟨"", "", 0, "", "", []⟩] 5).1.status = 202 ∧
      ∃ acc rej, (handleBatchEvents ⟨2, []⟩
          [(⟨"", "click", 0, "u", "s", []⟩ : Event), ⟨"", "", 0, "", "", []⟩] 5).1 =
          BatchResponse.accepted 2 acc rej ∧ acc + rej = 2 ∧
        ∃ ne : List Event,
          (handleBatchEvents ⟨2, []⟩
            [(⟨"", "click", 0, "u", "s", []⟩ : Event), ⟨"", "", 0, "", "", []⟩] 5).2.buf =
            ([] : List Event) ++ ne ∧
          (∀ x ∈ ne, x.type ≠ "") ∧ ne.length = acc) := by
  have h1 := (handleBatchEvents_spec ⟨2, []⟩ ([] : List Event) 5).1 (Or.inl rfl)
  have h2 := (handleBatchEvents_spec ⟨2, []⟩
    [(⟨"", "click", 0, "u", "s", []⟩ : Event), ⟨"", "", 0, "", "", []⟩] 5).2
    (by decide)
  exact ⟨⟨Or.inl rfl, h1.1, h1.2⟩, ⟨by decide, h2.1, h2.2⟩⟩

/-! ### C3: uniqueness of window starts -/

theorem getOrCreateWindow_snd (wm : WindowManager) (t : Time) :
    (wm.GetOrCreateWindow t).2 = wm ∨
    ((wm.GetOrCreateWindow t).2 =
        { wm with Windows := wm.Windows ++
            [NewTimeWindow (truncTime t wm.duration) wm.duration] } ∧
      wm.Windows.find?
        (fun w => w.StartTime == truncTime t wm.duration && !w.Closed) =
        none) := by
  unfold WindowManager.GetOrCreateWindow
  cases hf : wm.Windows.find?
      (fun w => w.StartTime == truncTime t wm.duration && !w.Closed) with
  | some w =>
      left
      simp [hf]
  | none =>
      right
      exact ⟨by simp [hf], rfl⟩

/-- C3 (amended): every reachable window collection has at most one
OPEN window per start instant. -/
theorem reachable_open_starts_unique (d : Duration) (wm : WindowManager)
    (h : WMReachable d wm) :
    wm.Windows.Pairwise (fun w1 w2 => w1.Closed = false →
      w2.Closed = false → w1.StartTime ≠ w2.StartTime) := by
  induction h with
  | init => simp [NewWindowManager]
  | get wm t _ ih =>
      rcases getOrCreateWindow_snd wm t with heq | ⟨heq, hf⟩
      · rw [heq]; exact ih
      · rw [heq]
        rw [List.pairwise_append]
        refine ⟨ih, by simp, ?_⟩
        intro a ha b hb
        simp only [List.mem_singleton] at hb
        subst hb
        intro hao hbo heq2
        have hnone := List.find?_eq_none.mp hf a ha
        apply hnone
        rw [Bool.and_eq_true, beq_iff_eq, Bool.not_eq_true']
        refine ⟨?_, hao⟩
        simpa [NewTimeWindow] using heq2
  | close wm t _ ih =>
      show ((wm.CloseExpiredWindows t).2.Windows).Pairwise _
      have hwin : (wm.CloseExpiredWindows t).2.Windows =
          wm.Windows.map (fun w => if w.ShouldClose t then w.Close else w) :=
        rfl
      rw [hwin]
      refine List.Pairwise.map _ ?_ ih
      intro a b hab h1 h2
      have ga : (if a.ShouldClose t then a.Close else a).StartTime =
          a.StartTime := by split <;> rfl
      have gb : (if b.ShouldClose t then b.Close else b).StartTime =
          b.StartTime := by split <;> rfl
      rw [ga, gb]
      apply hab
      · by_cases hc : a.ShouldClose t
        · rw [if_pos hc] at h1
          exact absurd h1 (by simp [TimeWindow.Close])
        · rw [if_neg hc] at h1
          exact h1
      · by_cases hc : b.ShouldClose t
        · rw [if_pos hc] at h2
          exact absurd h2 (by simp [TimeWindow.Close])
        · rw [if_neg hc] at h2
          exact h2
  | cleanup wm now keep _ ih =>
      show ((wm.Cleanup now keep).Windows).Pairwise _
      exact ih.sublist (List.filter_sublist _)

/-- C3 counterexample: `wmBad` is reachable by
`GetOrCreateWindow 0; CloseExpiredWindows 61; GetOrCreateWindow 30`,
yet holds two windows (one closed, one open) with the same start `0` —
the claim's "at most one window per aligned start, whether open or
closed" fails. -/
theorem window_unique_start_counterexample :
    WMReachable 60 wmBad ∧
    wmBad.Windows.map TimeWindow.StartTime = [0, 0] ∧
    ¬ wmBad.Windows.Pairwise
      (fun w1 w2 => w1.StartTime ≠ w2.StartTime) := by
  have hmap : wmBad.Windows.map TimeWindow.StartTime = [0, 0] := by decide
  refine ⟨WMReachable.get _ 30 (WMReachable.close _ 61
    (WMReachable.get _ 0 WMReachable.init)), hmap, ?_⟩
  intro hp
  have h2 : (wmBad.Windows.map TimeWindow.StartTime).Pairwise
      (fun a b => a ≠ b) := List.pairwise_map.mpr hp
  rw [hmap] at h2
  exact (List.pairwise_cons.mp h2).1 0 (by simp) rfl

/-- Witness for the amended C3 at the reachable state `wmBad`: the
duplicate-start pair there is one closed and one open window, so the
open-windows-only uniqueness holds. -/
theorem reachable_open_starts_unique_witness :
    WMReachable 60 wmBad ∧
    wmBad.Windows.Pairwise (fun w1 w2 => w1.Closed = false →
      w2.Closed = false → w1.StartTime ≠ w2.StartTime) :=
  ⟨WMReachable.get _ 30 (WMReachable.close _ 61
    (WMReachable.get _ 0 WMReachable.init)),
   reachable_open_starts_unique 60 wmBad
    (WMReachable.get _ 30 (WMReachable.close _ 61
      (WMReachable.get _ 0 WMReachable.init)))⟩

/-! ### C1 and C2: the flush loop on cancellation and on callback panic -/

/-- C1 (amended): when the cancellation signal arrives, `Start` logs
and returns at once — no final `CloseExpiredWindows`, no callback
invocation, aggregator state unchanged. -/
theorem start_cancel_no_flush (cb : Option (TimeWindow → CallbackResult))
    (rest : List LoopSignal) (a : Aggregator) :
    Aggregator.Start cb (LoopSignal.cancel :: rest) a = (a, [], false) := rfl

/-- C1 counterexample: with an expired-but-open window at cancellation
time `100`, `Start` on `cancel` returns with an empty invocation list
and the window still open, although a final sweep at `100` would have
collected exactly that window for the callback. -/
theorem start_cancel_counterexample :
    Aggregator.Start (some (fun _ => CallbackResult.ok))
      [LoopSignal.cancel] aggC1 = (aggC1, [], false) ∧
    (aggC1.windowManager.CloseExpiredWindows 100).1 =
      [(NewTimeWindow 0 60).Close] ∧
    aggC1.windowManager.GetActiveWindows = [NewTimeWindow 0 60] := by
  exact ⟨rfl, by decide, by decide⟩

/-- C2 (amended): there is no `recover` in the flush loop: when the
callback panics on some closed window of a tick, the loop stops right
there — the remaining closed windows of that tick get no callback, the
cleanup of that tick and all later signals are skipped, and the panic
escapes `Start`. -/
theorem callback_panic_aborts (cb : TimeWindow → CallbackResult) (now : Time)
    (rest : List LoopSignal) (a : Aggregator)
    (h : (runCallbacks cb (a.windowManager.CloseExpiredWindows now).1).2 =
      true) :
    Aggregator.Start (some cb) (LoopSignal.tick now :: rest) a =
      ({ a with windowManager := (a.windowManager.CloseExpiredWindows now).2 },
       (runCallbacks cb (a.windowManager.CloseExpiredWindows now).1).1,
       true) := by
  simp only [Aggregator.Start, Aggregator.flushExpiredWindows]
  simp [h]

/-- Witness for C2 (amended) at `aggC2` with `cbPanic`, tick at `200`:
the callback panics on the first closed window. -/
theorem callback_panic_aborts_witness :
    (runCallbacks cbPanic
      (aggC2.windowManager.CloseExpiredWindows 200).1).2 = true ∧
    Aggregator.Start (some cbPanic)
        [LoopSignal.tick 200, LoopSignal.tick 300] aggC2 =
      ({ aggC2 with windowManager :=
          (aggC2.windowManager.CloseExpiredWindows 200).2 },
       (runCallbacks cbPanic
         (aggC2.windowManager.CloseExpiredWindows 200).1).1,
       true) :=
  ⟨by decide,
   callback_panic_aborts cbPanic 200 [LoopSignal.tick 300] aggC2 (by decide)⟩

/-- C2 counterexample: at tick `200` both windows of `aggC2` expire and
are closed, but the panicking callback is invoked only on the first —
the second closed window of the same tick never gets its callback, the
later tick is not processed, and the panic escapes instead of being
recovered. -/
theorem callback_panic_counterexample :
    (aggC2.windowManager.CloseExpiredWindows 200).1 =
      [(NewTimeWindow 0 60).Close, (NewTimeWindow 60 60).Close] ∧
    (Aggregator.Start (some cbPanic)
      [LoopSignal.tick 200, LoopSignal.tick 300] aggC2).2.1 =
      [(NewTimeWindow 0 60).Close] ∧
    (Aggregator.Start (some cbPanic)
      [LoopSignal.tick 200, LoopSignal.tick 300] aggC2).2.2 = true := by
  exact ⟨by decide, by decide, by decide⟩

end Analytics
